import Mathlib

/-!
Verification development for the AroundMe local-discovery search service
(`apps/api/app`).  The Python source is shallowly embedded: every Python
float is modelled as an exact rational (`ℚ`), dictionaries become
association lists, `None`-able values become `Option`, and the handful of
external collaborators (the `rapidfuzz` similarity ratio, the `haversine`
distance, `math.log1p`, and the embedding-based semantic matcher) are
passed in as explicit function parameters, so that theorems can state the
documented properties of those collaborators as hypotheses and witnesses
can instantiate them concretely.
-/

namespace AroundMe

/-! ## Python string primitives

Helpers mirroring the Python string operations used by the service:
`str.lower`, the `in` substring test, `str.count` (non-overlapping),
`str.find`, `str.replace`, `str.strip`, `str.split()` (whitespace),
`str.endswith`, slicing and `str.title`.  All strings in the service are
ASCII, where `Char.toLower`/`Char.toUpper` agree with Python. -/

/-- Python `str.lower`. -/
def pyLower (s : String) : String := ⟨s.data.map Char.toLower⟩

/-- Is `needle` a prefix of `hay`? -/
def isPrefixChars : List Char → List Char → Bool
  | [], _ => true
  | _ :: _, [] => false
  | a :: as, b :: bs => a == b && isPrefixChars as bs

/-- Does `hay` contain `needle` as a contiguous substring? -/
def hasSub : List Char → List Char → Bool
  | [], n => n.isEmpty
  | h :: t, n => isPrefixChars n (h :: t) || hasSub t n

/-- Python `needle in hay` for strings. -/
def pyIn (needle hay : String) : Bool := hasSub hay.data needle.data

/-- Worker for `countSub`, structurally recursive on fuel; each step
consumes at least one character, so fuel `hay.length` always suffices. -/
def countSubGo (needle : List Char) : Nat → List Char → Nat
  | _, [] => 0
  | 0, _ :: _ => 0
  | fuel + 1, c :: rest =>
    if needle ≠ [] ∧ isPrefixChars needle (c :: rest) then
      1 + countSubGo needle fuel (List.drop (needle.length - 1) rest)
    else
      countSubGo needle fuel rest

/-- Python `hay.count(needle)`: non-overlapping occurrences, scanning left
to right.  (Only ever called with a nonempty needle.) -/
def countSub (needle hay : List Char) : Nat := countSubGo needle hay.length hay

/-- Python `hay.find(needle)` restricted to the found case. -/
def findSub (needle : List Char) : List Char → Option Nat
  | [] => if needle.isEmpty then some 0 else none
  | c :: rest =>
    if isPrefixChars needle (c :: rest) then some 0
    else (findSub needle rest).map (· + 1)

/-- Worker for `replaceSub`, structurally recursive on fuel; fuel
`hay.length` always suffices. -/
def replaceSubGo (needle repl : List Char) : Nat → List Char → List Char
  | _, [] => []
  | 0, l => l
  | fuel + 1, c :: rest =>
    if needle ≠ [] ∧ isPrefixChars needle (c :: rest) then
      repl ++ replaceSubGo needle repl fuel (List.drop (needle.length - 1) rest)
    else
      c :: replaceSubGo needle repl fuel rest

/-- Python `s.replace(old, new)`: replaces all non-overlapping occurrences
left to right.  (Only ever called with a nonempty pattern.) -/
def replaceSub (needle repl hay : List Char) : List Char :=
  replaceSubGo needle repl hay.length hay

/-- Python `s.replace(old, new)` on strings. -/
def pyReplace (s pat rep : String) : String := ⟨replaceSub pat.data rep.data s.data⟩

/-- The default whitespace set of Python `str.strip` / `str.split`. -/
def isSpaceChar (c : Char) : Bool :=
  c == ' ' || c == '\t' || c == '\n' || c == '\r' || c == '\x0b' || c == '\x0c'

/-- Python `s.strip()`. -/
def pyStrip (s : String) : String :=
  ⟨((s.data.dropWhile isSpaceChar).reverse.dropWhile isSpaceChar).reverse⟩

/-- Worker for `splitWS`, structurally recursive on fuel; fuel
`l.length` always suffices. -/
def splitWSGo : Nat → List Char → List (List Char)
  | _, [] => []
  | 0, _ :: _ => []
  | fuel + 1, c :: t =>
    if isSpaceChar c then splitWSGo fuel t
    else
      ((c :: t).takeWhile (fun x => !isSpaceChar x)) ::
        splitWSGo fuel ((c :: t).dropWhile (fun x => !isSpaceChar x))

/-- Python `s.split()`: split on whitespace runs, dropping empty pieces. -/
def splitWS (l : List Char) : List (List Char) := splitWSGo l.length l

/-- Python `s.endswith(suffix)`. -/
def pyEndsWith (s suf : String) : Bool := isPrefixChars suf.data.reverse s.data.reverse

/-- Python `s[:-n]` for `n ≤ len(s)`: drop the last `n` characters. -/
def pyDropRight (s : String) (n : Nat) : String := ⟨s.data.take (s.data.length - n)⟩

/-- Python `s[:n]`. -/
def pyTake (s : String) (n : Nat) : String := ⟨s.data.take n⟩

/-- Python `s.title()` (ASCII): uppercase each letter that follows a
non-letter, lowercase the rest. -/
def titleGo : Bool → List Char → List Char
  | _, [] => []
  | prevAlpha, c :: t =>
    let isAl := c.isAlpha
    (if isAl then (if prevAlpha then c.toLower else c.toUpper) else c) :: titleGo isAl t

/-- Python `s.title()` on strings. -/
def pyTitle (s : String) : String := ⟨titleGo false s.data⟩

/-! ## Python rounding

`round(x, n)` uses round-half-to-even.  We model it exactly on rationals
(ignoring binary-float representation error, as everywhere in this
embedding). -/

/-- A natural number as a rational, in a form the kernel evaluates. -/
def qn (n : Nat) : ℚ := mkRat (Int.ofNat n) 1

lemma qn_eq_cast (n : Nat) : qn n = (n : ℚ) := by
  rw [qn, Rat.mkRat_one]
  simp

/-- Python `min(a, b)` on rationals. -/
def pyMin (a b : ℚ) : ℚ := if a ≤ b then a else b

/-- Python `max(a, b)` on rationals. -/
def pyMax (a b : ℚ) : ℚ := if b ≤ a then a else b

/-- Round-half-to-even to an integer. -/
def roundHalfEven (q : ℚ) : ℤ :=
  let f : ℤ := ⌊q⌋
  let r : ℚ := q - f
  if r < 1 / 2 then f
  else if 1 / 2 < r then f + 1
  else if f % 2 = 0 then f else f + 1

/-- Python `round(x, 2)`. -/
def pyRound2 (q : ℚ) : ℚ := (roundHalfEven (q * 100) : ℚ) / 100

/-- Python `round(x, 1)`. -/
def pyRound1 (q : ℚ) : ℚ := (roundHalfEven (q * 10) : ℚ) / 10

/-! ## Raw provider payloads

`ProviderPlace.raw` is a Python `Dict[str, Any]`.  The ranking code only
distinguishes three shapes of values: the literal `True` (and other
scalars), strings, and nested dicts whose values are booleans
(`parking_options` / `payment_options`).  `other` stands for any value of
a shape the matching code never treats specially (e.g. the
`opening_hours` dict). -/

inductive RawVal where
  | b (v : Bool)
  | s (v : String)
  | d (entries : List (String × Bool))
  | other
deriving DecidableEq

/-- Embeds `raw.get(k)` on the association-list model of the dict. -/
def rawGet (raw : List (String × RawVal)) (k : String) : Option RawVal :=
  (raw.find? (fun e => e.1 == k)).map (·.2)

/-- Embeds `raw.get(k, "")` where the stored value is a string (the adapter always
stores `editorial_summary` as a string). -/
def rawGetStr (raw : List (String × RawVal)) (k : String) : String :=
  match rawGet raw k with
  | some (.s t) => t
  | _ => ""

/-! ## Data model (`app/schemas/places.py`)

`ProviderPlace` is the normalized record emitted by a provider adapter.
Floats are rationals; `Optional` fields are `Option`; `raw` is the
association-list model of the `Dict[str, Any]` payload. -/

structure ProviderPlace where
  provider : String
  provider_id : String
  name : String
  category : Option String
  lat : ℚ
  lng : ℚ
  rating : Option ℚ
  user_rating_count : Option ℤ
  price_level : Option ℤ
  phone : Option String
  website : Option String
  maps_url : Option String
  address : Option String
  distance_km : Option ℚ
  types : Option (List String)
  raw : List (String × RawVal)
deriving DecidableEq

instance : Inhabited ProviderPlace :=
  ⟨{ provider := "", provider_id := "", name := "", category := none, lat := 0, lng := 0,
     rating := none, user_rating_count := none, price_level := none, phone := none,
     website := none, maps_url := none, address := none, distance_km := none,
     types := none, raw := [] }⟩

/-- The pydantic `Field` range constraints on `ProviderPlace`
(`lat ∈ [-90,90]`, `lng ∈ [-180,180]`, `rating ∈ [0,5]`,
`user_rating_count ≥ 0`, `price_level ∈ [0,4]`, `distance_km ≥ 0`);
constructing a record violating them raises a `ValidationError`. -/
def isValidProviderPlace (p : ProviderPlace) : Bool :=
  decide (-90 ≤ p.lat ∧ p.lat ≤ 90) &&
  decide (-180 ≤ p.lng ∧ p.lng ≤ 180) &&
  (match p.rating with | some r => decide (0 ≤ r ∧ r ≤ 5) | none => true) &&
  (match p.user_rating_count with | some c => decide (0 ≤ c) | none => true) &&
  (match p.price_level with | some l => decide (0 ≤ l ∧ l ≤ 4) | none => true) &&
  (match p.distance_km with | some d => decide (0 ≤ d) | none => true)

/-- Canonical fused `Place` (`app/schemas/places.py`), restricted to the
fields the follow-up refiner consults; `id` is the uuid string. -/
structure Place where
  id : String
  name : String
  category : Option String
  price_level : Option ℤ
  rating : Option ℚ
  distance_km : Option ℚ
  features : List (String × ℚ)
  score : ℚ
deriving DecidableEq

/-! ## Deduper (`app/fusion/dedupe.py`)

The similarity ratio `rapidfuzz.fuzz.partial_ratio` and the `haversine`
package distance (wrapped by `app/utils/geo.py: calculate_distance_m`) are
external collaborators; they enter as function parameters `sim` (a ratio
in `[0,100]`) and `dist` (meters). -/

/-- The suffix list of `normalize_name`. -/
def nameSuffixes : List String :=
  [", inc", ", llc", " inc.", " llc.", " ltd.", " corporation", " corp."]

/-- The punctuation removed by `normalize_name`. -/
def namePunct : List Char := ['.', ',', '!', '?', ';', ':', '"', '\'', '(', ')']

/-- Embeds `normalize_name`: lowercase, strip business suffixes, remove
punctuation, collapse whitespace, strip. -/
def normalizeName (s : String) : String :=
  let n := pyLower s
  let n := nameSuffixes.foldl
    (fun acc suf => if pyEndsWith acc suf then pyDropRight acc suf.data.length else acc) n
  let n := namePunct.foldl (fun acc c => pyReplace acc (String.singleton c) "") n
  let n := String.intercalate " " ((splitWS n.data).map (fun w => ⟨w⟩))
  pyStrip n

/-- Embeds `are_duplicates` with the default thresholds: called with no explicit
thresholds, `name_threshold` is `settings.name_similarity_threshold * 100
= 82` and `geo_threshold_m` is `settings.geo_distance_threshold_m = 120`. -/
def areDuplicates (sim : String → String → ℚ) (dist : ℚ → ℚ → ℚ → ℚ → ℚ)
    (place1 place2 : ProviderPlace) : Bool :=
  let name1 := normalizeName place1.name
  let name2 := normalizeName place2.name
  let nameSim := sim name1 name2
  let geoDistM := dist place1.lat place1.lng place2.lat place2.lng
  decide (82 ≤ nameSim) && decide (geoDistM ≤ 120)

/-- Embeds `find` of the union-find with path compression, fueled: the Python
recursion `parent[i] = find(parent[i]); return parent[i]`.  A union-find
forest over `n` nodes has chains shorter than `n`, so fuel `n` suffices;
the partition theorem below does not depend on that. -/
def ufFind : Nat → List Nat → Nat → Nat × List Nat
  | 0, p, i => (i, p)
  | fuel + 1, p, i =>
    let pi := p.getD i i
    if pi = i then (i, p)
    else
      let (r, p') := ufFind fuel p pi
      (r, p'.set i r)

/-- Embeds `union(i, j)`: `parent[root_j] = root_i` when the roots differ. -/
def ufUnion (fuel : Nat) (p : List Nat) (i j : Nat) : List Nat :=
  let (ri, p1) := ufFind fuel p i
  let (rj, p2) := ufFind fuel p1 j
  if ri ≠ rj then p2.set rj ri else p2

/-- The index pairs `(i, j)` with `i < j < n`, in the iteration order of
the nested `for` loops. -/
def allPairs (n : Nat) : List (Nat × Nat) :=
  (List.range n).flatMap (fun i => ((List.range n).drop (i + 1)).map (fun j => (i, j)))

/-- Append `x` to the bucket keyed `k`, creating the bucket at the end on
first occurrence (Python dict insertion order). -/
def addToBucket {P : Type} (buckets : List (Nat × List P)) (k : Nat) (x : P) :
    List (Nat × List P) :=
  match buckets with
  | [] => [(k, [x])]
  | (k', xs) :: rest =>
    if k' = k then (k', xs ++ [x]) :: rest else (k', xs) :: addToBucket rest k x

/-- One step of the grouping loop `clusters[find(i)].append(places[i])`,
threading the (path-compressed) parent list. -/
def groupStep {P : Type} [Inhabited P] (places : List P) (n : Nat)
    (acc : List Nat × List (Nat × List P)) (i : Nat) : List Nat × List (Nat × List P) :=
  ((ufFind n acc.1 i).2, addToBucket acc.2 (ufFind n acc.1 i).1 (places.getD i default))

/-- Embeds `cluster_duplicates`: union duplicate pairs, then group the places by
their union-find root. -/
def clusterDuplicates (dup : ProviderPlace → ProviderPlace → Bool)
    (places : List ProviderPlace) : List (List ProviderPlace) :=
  let n := places.length
  let parent := (allPairs n).foldl
    (fun p ij =>
      if dup (places.getD ij.1 default) (places.getD ij.2 default) then
        ufUnion n p ij.1 ij.2
      else p)
    (List.range n)
  let grouped := (List.range n).foldl (groupStep places n) (parent, [])
  grouped.2.map Prod.snd

/-- The sort key of `select_representative`:
`(-(user_rating_count or 0), -(rating or 0), 0 if google else 1)`. -/
def repKey (p : ProviderPlace) : ℤ × ℚ × ℕ :=
  (-(p.user_rating_count.getD 0), -(p.rating.getD 0), if p.provider == "google" then 0 else 1)

/-- Lexicographic comparison of representative keys (Python tuple `<=`). -/
def keyLexLE (x y : ℤ × ℚ × ℕ) : Prop :=
  x.1 < y.1 ∨ (x.1 = y.1 ∧ (x.2.1 < y.2.1 ∨ (x.2.1 = y.2.1 ∧ x.2.2 ≤ y.2.2)))

/-- The sort relation of `select_representative`. -/
def repRel (a b : ProviderPlace) : Prop := keyLexLE (repKey a) (repKey b)

instance : DecidableRel repRel := fun a b => by
  unfold repRel keyLexLE; infer_instance

/-- Embeds `select_representative`: a singleton cluster yields its only member;
otherwise the head of the cluster sorted (stably, ascending) by `repKey`.
Python raises `IndexError` on an empty cluster; that case is `none`. -/
def selectRepresentative (cluster : List ProviderPlace) : Option ProviderPlace :=
  match cluster with
  | [] => none
  | [x] => some x
  | x :: y :: rest => (List.insertionSort repRel (x :: y :: rest)).head?

/-! ### Partition lemmas for the deduper -/

lemma flatten_addToBucket {P : Type} (buckets : List (Nat × List P)) (k : Nat) (x : P) :
    List.Perm ((addToBucket buckets k x).map Prod.snd).flatten
      ((buckets.map Prod.snd).flatten ++ [x]) := by
  induction buckets with
  | nil => simp [addToBucket]
  | cons hd rest ih =>
    obtain ⟨k', xs⟩ := hd
    by_cases h : k' = k
    · simp only [addToBucket, if_pos h, List.map_cons, List.flatten_cons]
      have h1 : (xs ++ [x]) ++ (rest.map Prod.snd).flatten
          = xs ++ ([x] ++ (rest.map Prod.snd).flatten) := by rw [List.append_assoc]
      have h2 : List.Perm (xs ++ ([x] ++ (rest.map Prod.snd).flatten))
          (xs ++ ((rest.map Prod.snd).flatten ++ [x])) :=
        List.Perm.append_left xs List.perm_append_comm
      rw [← h1, ← List.append_assoc] at h2
      exact h2
    · simp only [addToBucket, if_neg h, List.map_cons, List.flatten_cons]
      have h2 : List.Perm (xs ++ ((addToBucket rest k x).map Prod.snd).flatten)
          (xs ++ ((rest.map Prod.snd).flatten ++ [x])) := List.Perm.append_left xs ih
      rw [← List.append_assoc] at h2
      exact h2

lemma flatten_groupFold {P : Type} [Inhabited P] (places : List P) (n : Nat) :
    ∀ (is : List Nat) (p : List Nat) (buckets : List (Nat × List P)),
      List.Perm (((is.foldl (groupStep places n) (p, buckets)).2.map Prod.snd).flatten)
        ((buckets.map Prod.snd).flatten ++ is.map (fun i => places.getD i default)) := by
  intro is
  induction is with
  | nil => intro p buckets; simp
  | cons i rest ih =>
    intro p buckets
    simp only [List.foldl_cons, List.map_cons]
    have h1 := ih (groupStep places n (p, buckets) i).1 (groupStep places n (p, buckets) i).2
    have h2 : List.Perm
        (((addToBucket buckets (ufFind n p i).1 (places.getD i default)).map Prod.snd).flatten
          ++ rest.map (fun j => places.getD j default))
        (((buckets.map Prod.snd).flatten ++ [places.getD i default])
          ++ rest.map (fun j => places.getD j default)) :=
      List.Perm.append_right _ (flatten_addToBucket buckets _ _)
    have h3 := h1.trans h2
    rw [List.append_assoc] at h3
    exact h3

lemma map_getD_range {P : Type} [Inhabited P] (l : List P) :
    (List.range l.length).map (fun i => l.getD i default) = l := by
  induction l with
  | nil => simp
  | cons a t ih =>
    rw [List.length_cons, List.range_succ_eq_map, List.map_cons, List.map_map]
    have hc : ((fun i => (a :: t).getD i default) ∘ Nat.succ) = fun i => t.getD i default :=
      funext fun i => List.getD_cons_succ
    rw [List.getD_cons_zero, hc, ih]

lemma addToBucket_nonempty {P : Type} (buckets : List (Nat × List P)) (k : Nat) (x : P)
    (h : ∀ b ∈ buckets, b.2 ≠ []) : ∀ b ∈ addToBucket buckets k x, b.2 ≠ [] := by
  induction buckets with
  | nil =>
    intro b hb
    simp only [addToBucket, List.mem_singleton] at hb
    subst hb; simp
  | cons hd rest ih =>
    obtain ⟨k', xs⟩ := hd
    intro b hb
    by_cases hk : k' = k
    · simp only [addToBucket, if_pos hk, List.mem_cons] at hb
      rcases hb with hb | hb
      · subst hb; simp
      · exact h b (List.mem_cons_of_mem _ hb)
    · simp only [addToBucket, if_neg hk, List.mem_cons] at hb
      rcases hb with hb | hb
      · subst hb; exact h _ (List.mem_cons_self _ _)
      · exact ih (fun c hc => h c (List.mem_cons_of_mem _ hc)) b hb

lemma groupFold_nonempty {P : Type} [Inhabited P] (places : List P) (n : Nat) :
    ∀ (is : List Nat) (p : List Nat) (buckets : List (Nat × List P)),
      (∀ b ∈ buckets, b.2 ≠ []) →
      ∀ b ∈ (is.foldl (groupStep places n) (p, buckets)).2, b.2 ≠ [] := by
  intro is
  induction is with
  | nil => intro p buckets h; simpa using h
  | cons i rest ih =>
    intro p buckets h
    exact ih _ _ (addToBucket_nonempty _ _ _ h)

lemma selectRepresentative_mem (c : List ProviderPlace) (hc : c ≠ []) :
    ∃ r, selectRepresentative c = some r ∧ r ∈ c := by
  match c with
  | [] => exact absurd rfl hc
  | [x] => exact ⟨x, rfl, List.mem_singleton_self x⟩
  | x :: y :: rest =>
    have hperm := List.perm_insertionSort repRel (x :: y :: rest)
    match hs : List.insertionSort repRel (x :: y :: rest) with
    | [] => rw [hs] at hperm; exact absurd hperm.length_eq (by simp)
    | h :: t =>
      refine ⟨h, ?_, ?_⟩
      · show (List.insertionSort repRel (x :: y :: rest)).head? = some h
        rw [hs]; rfl
      · rw [hs] at hperm
        exact hperm.mem_iff.mp (List.mem_cons_self h t)

/-- C5: for every input list of provider records (and every duplicate
predicate, in particular `are_duplicates`), the clusters produced by
`cluster_duplicates` form a partition of the input — their concatenation
is a permutation of the input multiset, so every record lands in exactly
one cluster counted with multiplicity — and `select_representative`
returns a member of its cluster. -/
theorem claim5_dedupe_partition (dup : ProviderPlace → ProviderPlace → Bool)
    (places : List ProviderPlace) :
    List.Perm (clusterDuplicates dup places).flatten places ∧
    ∀ c ∈ clusterDuplicates dup places, ∃ r, selectRepresentative c = some r ∧ r ∈ c := by
  constructor
  · dsimp only [clusterDuplicates]
    have h := flatten_groupFold places places.length (List.range places.length)
      ((allPairs places.length).foldl
        (fun p ij =>
          if dup (places.getD ij.1 default) (places.getD ij.2 default) then
            ufUnion places.length p ij.1 ij.2
          else p)
        (List.range places.length)) []
    simp only [List.map_nil, List.flatten_nil, List.nil_append] at h
    rw [map_getD_range] at h
    exact h
  · intro c hc
    have hc' : ∀ b ∈ ((List.range places.length).foldl (groupStep places places.length)
        ((allPairs places.length).foldl
          (fun p ij =>
            if dup (places.getD ij.1 default) (places.getD ij.2 default) then
              ufUnion places.length p ij.1 ij.2
            else p)
          (List.range places.length), [])).2, b.2 ≠ [] :=
      groupFold_nonempty places places.length (List.range places.length) _ []
        (by intro b hb; simp at hb)
    unfold clusterDuplicates at hc
    simp only [List.mem_map] at hc
    obtain ⟨b, hb, hbc⟩ := hc
    exact selectRepresentative_mem c (hbc ▸ hc' b hb)

/-- Sample places used by concrete witnesses. -/
def samplePlaceA : ProviderPlace :=
  { provider := "google", provider_id := "g1", name := "Blue Bottle Coffee",
    category := some "cafe", lat := 37, lng := -122, rating := some 4, user_rating_count := some 100,
    price_level := some 2, phone := none, website := none, maps_url := none, address := none,
    distance_km := some 1, types := none, raw := [] }

/-- Second sample place. -/
def samplePlaceB : ProviderPlace :=
  { provider := "yelp", provider_id := "y1", name := "Blue Bottle Coffee",
    category := some "cafe", lat := 37, lng := -122, rating := some 5, user_rating_count := some 50,
    price_level := some 2, phone := none, website := none, maps_url := none, address := none,
    distance_km := some 1, types := none, raw := [] }

theorem claim5_dedupe_partition_witness :
    List.Perm (clusterDuplicates (fun _ _ => true) [samplePlaceA, samplePlaceB]).flatten
      [samplePlaceA, samplePlaceB] ∧
    (∃ r, selectRepresentative [samplePlaceA, samplePlaceB] = some r ∧
      r ∈ [samplePlaceA, samplePlaceB]) := by
  have h := claim5_dedupe_partition (fun _ _ => true) [samplePlaceA, samplePlaceB]
  exact ⟨h.1, h.2 [samplePlaceA, samplePlaceB] (by decide)⟩

/-- C6: the duplicate predicate `are_duplicates` (with its default
thresholds 82 and 120 m) is symmetric and reflexive, given the documented
behaviour of its external collaborators: `fuzz.partial_ratio` is
symmetric and maximal (100) on identical strings, and the haversine
distance is symmetric and zero on identical coordinates. -/
theorem claim6_dup_symm_refl (sim : String → String → ℚ) (dist : ℚ → ℚ → ℚ → ℚ → ℚ)
    (hsimSymm : ∀ s t, sim s t = sim t s) (hsimSelf : ∀ s, sim s s = 100)
    (hdistSymm : ∀ a b c d, dist a b c d = dist c d a b)
    (hdistSelf : ∀ a b, dist a b a b = 0) :
    (∀ p q, areDuplicates sim dist p q = areDuplicates sim dist q p) ∧
    (∀ p, areDuplicates sim dist p p = true) := by
  constructor
  · intro p q
    unfold areDuplicates
    dsimp only
    rw [hsimSymm, hdistSymm]
  · intro p
    unfold areDuplicates
    dsimp only
    rw [hsimSelf, hdistSelf]
    norm_num

theorem claim6_dup_symm_refl_witness :
    (areDuplicates (fun _ _ => 100) (fun _ _ _ _ => 0) samplePlaceA samplePlaceB =
      areDuplicates (fun _ _ => 100) (fun _ _ _ _ => 0) samplePlaceB samplePlaceA) ∧
    areDuplicates (fun _ _ => 100) (fun _ _ _ _ => 0) samplePlaceA samplePlaceA = true := by
  have h := claim6_dup_symm_refl (fun _ _ => 100) (fun _ _ _ _ => 0)
    (fun _ _ => rfl) (fun _ => rfl) (fun _ _ _ _ => rfl) (fun _ _ => rfl)
  exact ⟨h.1 samplePlaceA samplePlaceB, h.2 samplePlaceA⟩

/-! ## Amenity features (`app/fusion/amenities.py`) -/

/-- Embeds `AMENITY_MAP`: normalized feature key to alias list. -/
def amenityMap : List (String × List String) :=
  [("changing_station", ["changing_station", "changing_table", "baby_changing", "diaper_changing"]),
   ("stroller_parking", ["stroller_parking", "stroller_friendly", "pram_parking"]),
   ("playground", ["playground", "play_area", "kids_play", "children_playground"]),
   ("family_friendly", ["family_friendly", "kid_friendly", "kids_welcome", "children_welcome"]),
   ("recliners", ["recliners", "recliner_seats", "luxury_seating"]),
   ("dolby", ["dolby", "dolby_atmos", "dolby_cinema", "dolby_sound"]),
   ("shade", ["shade", "shaded_area", "covered_seating", "umbrella"]),
   ("outdoor_seating", ["outdoor_seating", "patio", "terrace", "outdoor_dining", "garden_seating"]),
   ("wifi", ["wifi", "wireless", "internet", "free_wifi"]),
   ("wheelchair_accessible", ["wheelchair_accessible", "accessible", "ada_compliant"]),
   ("parking", ["parking", "parking_lot", "valet_parking", "free_parking"]),
   ("pet_friendly", ["pet_friendly", "dog_friendly", "pets_allowed"]),
   ("vegetarian", ["vegetarian", "veggie_options", "vegetarian_friendly"]),
   ("vegan", ["vegan", "vegan_options", "plant_based"]),
   ("gluten_free", ["gluten_free", "gf_options"]),
   ("takeout", ["takeout", "take_out", "to_go"]),
   ("delivery", ["delivery", "food_delivery"]),
   ("reservations", ["reservations", "booking", "table_booking"]),
   ("quiet", ["quiet", "peaceful", "calm", "relaxing"]),
   ("live_music", ["live_music", "music", "entertainment"])]

/-- Embeds `ALIAS_TO_FEATURE` lookup: the Python dict is built feature by
feature, alias by alias; the aliases are pairwise distinct, so the
first-match lookup below agrees with the dict. -/
def aliasToFeature (al : String) : Option String :=
  ((amenityMap.flatMap (fun e => e.2.map (fun a => (pyLower a, "feat_" ++ e.1)))).find?
    (fun e => e.1 == al)).map (·.2)

/-- Embeds `normalize_amenity`. -/
def normalizeAmenity (text : String) : String :=
  let tl := pyStrip (pyLower text)
  (aliasToFeature tl).getD ("feat_" ++ pyReplace tl " " "_")

/-- Embeds `extract_features_from_text`: for each feature, the first alias
occurring in the lowercased text scores `min(1, 0.3 + count*0.2)`; only
positive scores are recorded (in `AMENITY_MAP` order, matching dict
insertion order). -/
def extractFeaturesFromText (text : String) : List (String × ℚ) :=
  let tl := pyLower text
  amenityMap.filterMap (fun e =>
    match e.2.find? (fun a => pyIn a tl) with
    | some a =>
      let count : ℚ := qn (countSub a.data tl.data)
      let score := pyMin 1 (3 / 10 + count * (2 / 10))
      if 0 < score then some ("feat_" ++ e.1, score) else none
    | none => none)

/-- Embeds `features.get(key, 0.0)`. -/
def featuresGet (features : List (String × ℚ)) (k : String) : ℚ :=
  ((features.find? (fun e => e.1 == k)).map (·.2)).getD 0

/-- Embeds `check_must_haves`: a must-have counts as satisfied when the
normalized feature scores at least 0.5; returns
`(all_satisfied, matched_list)`. -/
def checkMustHaves (features : List (String × ℚ)) (must_haves : List String) :
    Bool × List String :=
  let matched := must_haves.filter (fun m => (1 : ℚ) / 2 ≤ featuresGet features (normalizeAmenity m))
  (matched.length == must_haves.length, matched)

/-! ## Constraint joiner (`app/agent/nodes.py: constraint_join_node`)

The haversine distance is again the `dist` parameter.  The parsed intent
supplies `entities` (index 0 is the anchor) and `relations`. -/

/-- An `EntitySpec` of a multi-entity intent (`kind`, `must_haves`);
a missing `must_haves` key reads as the empty list. -/
structure Entity where
  kind : String
  must_haves : List String
deriving DecidableEq

/-- A relation of a multi-entity intent; `distance_m` is optional and
defaults to `settings.default_near_distance_m = 500`. -/
structure Relation where
  left : Nat
  right : Nat
  distance_m : Option ℚ
deriving DecidableEq

/-- A matched-partner record. -/
structure Partner where
  kind : String
  name : String
  distance_m : ℚ
  matched_must_haves : List String
  lat : ℚ
  lng : ℚ
deriving DecidableEq

/-- The partner entity the loop body selects for a relation:
skip when `relation["left"] != 0` or `partner_idx >= len(partner_entities)`;
otherwise `partner_entities[partner_idx - 1]`, which for `partner_idx = 0`
is Python's `[-1]`, the last partner entity. -/
def partnerEntityOf (entities : List Entity) (rel : Relation) : Option Entity :=
  let partnerEntities := entities.drop 1
  if rel.left ≠ 0 then none
  else if partnerEntities.length ≤ rel.right then none
  else if rel.right = 0 then partnerEntities.getLast?
  else partnerEntities.get? (rel.right - 1)

/-- The partner records one relation contributes for one anchor: every
other fused place within the relation's distance whose features satisfy
the partner entity's (nonempty) `must_haves`.  When `must_haves` is empty
the loop body appends nothing (the `append` sits inside the
`if partner_entity.get("must_haves"):` branch). -/
def relationPartners (dist : ℚ → ℚ → ℚ → ℚ → ℚ) (entities : List Entity)
    (fused : List ProviderPlace) (anchor : ProviderPlace) (rel : Relation) : List Partner :=
  match partnerEntityOf entities rel with
  | none => []
  | some pe =>
    let maxDistanceM := rel.distance_m.getD 500
    fused.filterMap (fun pp =>
      if pp = anchor then none
      else
        let distM := dist anchor.lat anchor.lng pp.lat pp.lng
        if maxDistanceM < distM then none
        else
          let partnerFeatures := extractFeaturesFromText pp.name
          if pe.must_haves ≠ [] then
            let checked := checkMustHaves partnerFeatures pe.must_haves
            if checked.1 then
              some ⟨pe.kind, pp.name, distM, checked.2, pp.lat, pp.lng⟩
            else none
          else none)

/-- The anchor pre-filter: keep a fused place unless the anchor entity
has must-haves that its name-derived features fail to satisfy. -/
def anchorFilter (entities : List Entity) (fused : List ProviderPlace) :
    List ProviderPlace :=
  match entities.head? with
  | none => fused
  | some anchorEntity =>
    fused.filter (fun pl =>
      if anchorEntity.must_haves ≠ [] then
        (checkMustHaves (extractFeaturesFromText pl.name) anchorEntity.must_haves).1
      else true)

/-- Embeds `constraint_join_node`, reduced to its data transformation: on a
multi-entity intent with at least two entities and at least one relation,
filter anchors, collect each anchor's partner records over all relations,
and keep an anchor when `len(partners_found) >= len(relations)`.
Returns the kept anchors and their partner lists. -/
def constraintJoin (dist : ℚ → ℚ → ℚ → ℚ → ℚ) (entities : List Entity)
    (relations : List Relation) (fused : List ProviderPlace) :
    List ProviderPlace × List (List Partner) :=
  if entities.length ≤ 1 ∨ relations = [] then (fused, [])
  else
    let anchors := anchorFilter entities fused
    let results := anchors.filterMap (fun a =>
      let partners := relations.flatMap (relationPartners dist entities fused a)
      if relations.length ≤ partners.length then some (a, partners) else none)
    (results.map Prod.fst, results.map Prod.snd)

/-- C2 (amended): in the constraint joiner, an anchor that survives the
must-have pre-filter is kept iff the **total** number of partner records
accumulated across all relations is at least the number of relations —
not iff every relation individually found a partner. -/
theorem claim2_join_keeps_by_total_count (dist : ℚ → ℚ → ℚ → ℚ → ℚ)
    (entities : List Entity) (relations : List Relation) (fused : List ProviderPlace)
    (h2 : 2 ≤ entities.length) (hrel : relations ≠ []) (a : ProviderPlace) :
    a ∈ (constraintJoin dist entities relations fused).1 ↔
      a ∈ anchorFilter entities fused ∧
      relations.length ≤ (relations.flatMap (relationPartners dist entities fused a)).length := by
  have hguard : ¬(entities.length ≤ 1 ∨ relations = []) := by
    push_neg
    exact ⟨by omega, hrel⟩
  unfold constraintJoin
  rw [if_neg hguard]
  dsimp only
  constructor
  · intro ha
    simp only [List.mem_map, List.mem_filterMap] at ha
    obtain ⟨pair, ⟨x, hx, hfx⟩, hpa⟩ := ha
    by_cases hc : relations.length ≤
        (relations.flatMap (relationPartners dist entities fused x)).length
    · rw [if_pos hc] at hfx
      have hpair := Option.some.inj hfx
      rw [← hpair] at hpa
      dsimp at hpa
      rw [← hpa]
      exact ⟨hx, hc⟩
    · rw [if_neg hc] at hfx
      exact absurd hfx (by simp)
  · rintro ⟨hx, hc⟩
    simp only [List.mem_map, List.mem_filterMap]
    exact ⟨(a, relations.flatMap (relationPartners dist entities fused a)),
      ⟨a, hx, by rw [if_pos hc]⟩, rfl⟩

/-- The entity list of the join counterexample: an anchor with no
must-haves, a partner entity requiring wifi, and a partner entity
requiring dolby. -/
def cjEntities : List Entity :=
  [⟨"cafe", []⟩, ⟨"coworking", ["wifi"]⟩, ⟨"cinema", ["dolby"]⟩]

/-- Two relations: `right = 1` selects the wifi entity; `right = 0`
selects `partner_entities[-1]`, the dolby entity. -/
def cjRelations : List Relation := [⟨0, 1, none⟩, ⟨0, 0, none⟩]

/-- The anchor candidate of the join counterexample. -/
def cjAnchorPlace : ProviderPlace :=
  { provider := "google", provider_id := "a", name := "Cafe Uno", category := none,
    lat := 0, lng := 0, rating := none, user_rating_count := none, price_level := none,
    phone := none, website := none, maps_url := none, address := none,
    distance_km := none, types := none, raw := [] }

/-- First wifi-satisfying neighbour. -/
def cjWifiPlaceOne : ProviderPlace :=
  { provider := "google", provider_id := "w1", name := "wifi spot one", category := none,
    lat := 0, lng := 0, rating := none, user_rating_count := none, price_level := none,
    phone := none, website := none, maps_url := none, address := none,
    distance_km := none, types := none, raw := [] }

/-- Second wifi-satisfying neighbour. -/
def cjWifiPlaceTwo : ProviderPlace :=
  { provider := "google", provider_id := "w2", name := "wifi spot two", category := none,
    lat := 0, lng := 0, rating := none, user_rating_count := none, price_level := none,
    phone := none, website := none, maps_url := none, address := none,
    distance_km := none, types := none, raw := [] }

/-- The fused set of the join counterexample. -/
def cjFused : List ProviderPlace := [cjAnchorPlace, cjWifiPlaceOne, cjWifiPlaceTwo]

/-- C2 counterexample: the anchor finds two partners through the wifi
relation and none through the dolby relation, yet it is kept (the code
compares the total partner count `2` against `len(relations) = 2`),
contradicting the claim that such an anchor is dropped. -/
theorem claim2_join_counterexample :
    (constraintJoin (fun _ _ _ _ => 0) cjEntities cjRelations cjFused).1 = [cjAnchorPlace] ∧
    relationPartners (fun _ _ _ _ => 0) cjEntities cjFused cjAnchorPlace ⟨0, 0, none⟩ = [] ∧
    (relationPartners (fun _ _ _ _ => 0) cjEntities cjFused cjAnchorPlace ⟨0, 1, none⟩).length
      = 2 := by
  refine ⟨?_, ?_, ?_⟩ <;> with_unfolding_all decide

theorem claim2_join_keeps_by_total_count_witness :
    cjAnchorPlace ∈ (constraintJoin (fun _ _ _ _ => 0) cjEntities cjRelations cjFused).1 ↔
      cjAnchorPlace ∈ anchorFilter cjEntities cjFused ∧
      cjRelations.length ≤ (cjRelations.flatMap
        (relationPartners (fun _ _ _ _ => 0) cjEntities cjFused cjAnchorPlace)).length :=
  claim2_join_keeps_by_total_count (fun _ _ _ _ => 0) cjEntities cjRelations cjFused
    (by decide) (by decide) cjAnchorPlace

/-- C9: a relation whose selected partner entity has an empty
`must_haves` list contributes no partner record: the `append` of a
partner sits inside the branch requiring `partner_entity.must_haves` to
be nonempty and satisfied, so an anchor can accumulate partners only
through relations whose partner entity lists at least one must-have. -/
theorem claim9_empty_must_haves_no_partner (dist : ℚ → ℚ → ℚ → ℚ → ℚ)
    (entities : List Entity) (fused : List ProviderPlace) (anchor : ProviderPlace)
    (rel : Relation)
    (h : ∀ pe, partnerEntityOf entities rel = some pe → pe.must_haves = []) :
    relationPartners dist entities fused anchor rel = [] := by
  unfold relationPartners
  cases hpe : partnerEntityOf entities rel with
  | none => rfl
  | some pe =>
    have hmt := h pe hpe
    apply List.filterMap_eq_nil_iff.mpr
    intro pp _
    dsimp only
    rw [hmt]
    simp

theorem claim9_empty_must_haves_no_partner_witness :
    relationPartners (fun _ _ _ _ => 0) [⟨"cafe", []⟩, ⟨"park", []⟩] cjFused
      cjAnchorPlace ⟨0, 0, none⟩ = [] :=
  claim9_empty_must_haves_no_partner (fun _ _ _ _ => 0) [⟨"cafe", []⟩, ⟨"park", []⟩]
    cjFused cjAnchorPlace ⟨0, 0, none⟩
    (by intro pe hpe; injection hpe with hh; rw [← hh]; with_unfolding_all decide)

/-! ## Ranking (`app/fusion/ranking.py`)

`math.log1p` enters as the oracle `log1p : ℤ → ℚ` (applied to
`user_rating_count`), and the embedding-based semantic matcher
(`check_semantic_match`, returning the best similarity and the matched
text truncated to 100 characters, or `None` on no match / any error) as
the oracle `sem : String → ProviderPlace → Option (ℚ × String)`. -/

/-- Python `min` on naturals. -/
def pyMinNat (a b : Nat) : Nat := if a ≤ b then a else b

/-- Python `int()` truncation toward zero on a rational. -/
def pyInt (q : ℚ) : ℤ := if 0 ≤ q then ⌊q⌋ else -⌊-q⌋

/-- A normalized requirement dict entry (`requirement`, `keywords`,
`category`; the `req.get` defaults never fire because the extractor
always populates these keys). -/
structure Req where
  requirement : String
  keywords : List String
  category : String
deriving DecidableEq

/-- Embeds `amenity_mapping` of `check_structured_amenities`: requirement
keyword to Google structured-field names. -/
def amenityMapping : List (String × List String) :=
  [("wifi", ["wifi", "internet", "wireless"]),
   ("outdoor seating", ["outdoor_seating"]),
   ("outdoor", ["outdoor_seating"]),
   ("patio", ["outdoor_seating"]),
   ("parking", ["parking_options"]),
   ("family friendly", ["good_for_children"]),
   ("family", ["good_for_children"]),
   ("kids", ["good_for_children"]),
   ("pet friendly", ["allows_dogs"]),
   ("dog", ["allows_dogs"]),
   ("pet", ["allows_dogs"]),
   ("wheelchair", ["wheelchair_accessible"]),
   ("accessible", ["wheelchair_accessible"]),
   ("delivery", ["delivery"]),
   ("takeout", ["takeout"]),
   ("pickup", ["takeout"]),
   ("reservations", ["reservable"]),
   ("reservation", ["reservable"]),
   ("booking", ["reservable"]),
   ("vegetarian", ["serves_vegetarian_food"]),
   ("breakfast", ["serves_breakfast"]),
   ("brunch", ["serves_brunch"]),
   ("lunch", ["serves_lunch"]),
   ("dinner", ["serves_dinner"]),
   ("beer", ["serves_beer"]),
   ("wine", ["serves_wine"]),
   ("groups", ["good_for_groups"])]

/-- Is the raw field a structured-amenity hit: the literal `True`, or a
nested dict with some `True` value? -/
def rawFieldHit (raw : List (String × RawVal)) (fieldName : String) : Bool :=
  match rawGet raw fieldName with
  | some (.b true) => true
  | some (.d nested) => nested.any (fun kv => kv.2)
  | _ => false

/-- METHOD 1, `check_structured_amenities`: first an exact pass over the
requirement's keywords (dict lookup of the lowercased keyword), then a
partial pass over the mapping for key terms contained in the lowercased
requirement name.  Returns the matched field name. -/
def checkStructuredAmenities (place : ProviderPlace) (requirement : String)
    (keywords : List String) : Option String :=
  let raw := place.raw
  let reqLower := pyLower requirement
  let pass1 := keywords.findSome? (fun kw =>
    match amenityMapping.find? (fun e => e.1 == pyLower kw) with
    | none => none
    | some e => e.2.findSome? (fun fieldName =>
        if rawFieldHit raw fieldName then some fieldName else none))
  match pass1 with
  | some f => some f
  | none =>
    amenityMapping.findSome? (fun e =>
      if pyIn e.1 reqLower then
        e.2.findSome? (fun fieldName =>
          if rawFieldHit raw fieldName then some fieldName else none)
      else none)

/-- The boolean amenity fields rendered into the searchable text. -/
def amenityTextFields : List String :=
  ["outdoor_seating", "good_for_children", "good_for_groups",
   "allows_dogs", "reservable", "serves_beer", "serves_breakfast",
   "serves_brunch", "serves_dinner", "serves_lunch",
   "serves_vegetarian_food", "serves_wine", "takeout",
   "delivery", "dine_in", "wheelchair_accessible"]

/-- Embeds `field.replace("_", " ").replace("serves ", "").replace("allows ", "")`. -/
def readableField (fieldName : String) : String :=
  pyReplace (pyReplace (pyReplace fieldName "_" " ") "serves " "") "allows " ""

/-- METHOD 2 text, `build_comprehensive_place_text`: name, truthy
category/address, truthy `types`, truthy editorial summary, and each raw
amenity field that is literally `True`, joined by spaces and lowercased. -/
def buildComprehensivePlaceText (place : ProviderPlace) : String :=
  let catPart := match place.category with
    | some c => if c ≠ "" then [c] else []
    | none => []
  let addrPart := match place.address with
    | some a => if a ≠ "" then [a] else []
    | none => []
  let typesPart := match place.types with
    | some ts => if ts ≠ [] then ts else []
    | none => []
  let editorial := rawGetStr place.raw "editorial_summary"
  let editorialPart := if editorial ≠ "" then [editorial] else []
  let amenityPart := (amenityTextFields.filter
    (fun f => rawGet place.raw f == some (.b true))).map readableField
  pyLower (String.intercalate " "
    ([place.name] ++ catPart ++ addrPart ++ typesPart ++ editorialPart ++ amenityPart))

/-- METHOD 2, `check_keyword_match`: the first keyword whose lowercase
form occurs in the comprehensive place text. -/
def checkKeywordMatch (place : ProviderPlace) (keywords : List String) : Option String :=
  let placeText := buildComprehensivePlaceText place
  keywords.find? (fun kw => pyIn (pyLower kw) placeText)

/-- METHOD 4, `check_review_mentions`: the first keyword occurring in the
lowercased editorial summary, with a ±30-character context window. -/
def checkReviewMentions (place : ProviderPlace) (keywords : List String) : Option String :=
  let editorial := pyLower (rawGetStr place.raw "editorial_summary")
  if editorial = "" then none
  else
    keywords.findSome? (fun kw =>
      let kwl := pyLower kw
      if pyIn kwl editorial then
        match findSub kwl.data editorial.data with
        | some idx =>
          let start := idx - 30
          let stop := pyMinNat editorial.data.length (idx + kwl.data.length + 30)
          let context := pyStrip ⟨(editorial.data.take stop).drop start⟩
          some ("Review mentions: '" ++ context ++ "'")
        | none => none
      else none)

/-- Outcome of the per-(place, requirement) method chain: the local
variables `matched`, `match_method`, `confidence`, `evidence_text`. -/
structure MatchOutcome where
  matched : Bool
  method : Option String
  confidence : ℚ
  evidence : Option String
deriving DecidableEq

/-- The f-string of the semantic evidence. -/
def semanticEvidence (score : ℚ) (text : String) : String :=
  "AI match (" ++ toString (pyInt (score * 100)) ++ "%): " ++ pyTake text 50 ++ "..."

/-- Embeds `rank_places_async`'s method chain: structured data (confidence 1.0),
then keyword (0.8), then — when semantic matching is enabled — the
semantic oracle (its similarity as confidence), then review mentions
(0.7); each later method runs only when all earlier ones failed. -/
def matchChainAsync (sem : String → ProviderPlace → Option (ℚ × String)) (useSem : Bool)
    (place : ProviderPlace) (req : Req) : MatchOutcome :=
  match checkStructuredAmenities place req.requirement req.keywords with
  | some fieldName =>
    ⟨true, some "structured_data", 1,
      some ("✓ Verified by Google: " ++ pyReplace fieldName "_" " ")⟩
  | none =>
    match checkKeywordMatch place req.keywords with
    | some kw => ⟨true, some "keyword", 4 / 5, some ("Found keyword: '" ++ kw ++ "'")⟩
    | none =>
      match (if useSem then sem req.requirement place else none) with
      | some st => ⟨true, some "semantic", st.1, some (semanticEvidence st.1 st.2)⟩
      | none =>
        match checkReviewMentions place req.keywords with
        | some ev => ⟨true, some "review", 7 / 10, some ev⟩
        | none => ⟨false, none, 0, none⟩

/-- Embeds `rank_places`' (synchronous) method chain: methods 1 and 2 only, with
the shorter evidence strings of the synchronous code path. -/
def matchChainSync (place : ProviderPlace) (req : Req) : MatchOutcome :=
  match checkStructuredAmenities place req.requirement req.keywords with
  | some fieldName =>
    ⟨true, some "structured_data", 1, some ("✓ Verified: " ++ pyReplace fieldName "_" " ")⟩
  | none =>
    match checkKeywordMatch place req.keywords with
    | some kw => ⟨true, some "keyword", 4 / 5, some ("Found: '" ++ kw ++ "'")⟩
    | none => ⟨false, none, 0, none⟩

/-- Embeds `bonus = 10.0 * confidence if matched else 0.0`. -/
def bonusOf (o : MatchOutcome) : ℚ := if o.matched then 10 * o.confidence else 0

/-- The dict appended to `requirement_matches`. -/
structure RequirementMatchRec where
  requirement : String
  matched : Bool
  score_bonus : ℚ
  evidence : Option String
  type : String
  confidence : ℚ
  method : Option String
deriving DecidableEq

/-- Build the recorded requirement-match dict from the chain outcome
(`score_bonus` and `confidence` are stored rounded to 2 decimals). -/
def buildMatchRec (req : Req) (o : MatchOutcome) : RequirementMatchRec :=
  ⟨req.requirement, o.matched, pyRound2 (bonusOf o), o.evidence, req.category,
    pyRound2 o.confidence, o.method⟩

/-- The `filters` dict as the ranker reads it (`"price" in filters`). -/
structure RankFilters where
  price : Option (ℤ × ℤ)
deriving DecidableEq

/-- The `points` table per preset (the weight dicts converted to points
out of 100; unknown presets fall back to balanced). -/
def presetPoints (preset : String) : ℚ × ℚ × ℚ :=
  if preset == "balanced" then (55, 30, 15)
  else if preset == "nearby" then (35, 20, 45)
  else if preset == "review-heavy" then (45, 50, 5)
  else (55, 30, 15)

/-- The rating component (`if place.rating:` is a Python truthiness
test, so a present `0.0` contributes nothing). -/
def ratingScoreOf (pts1 : ℚ) (place : ProviderPlace) : ℚ :=
  match place.rating with
  | some r => if r ≠ 0 then r / 5 * pts1 else 0
  | none => 0

/-- The review-volume component: `min(1, log1p(count)/8) * points`
(again a truthiness test on the count). -/
def reviewScoreOf (log1p : ℤ → ℚ) (pts2 : ℚ) (place : ProviderPlace) : ℚ :=
  match place.user_rating_count with
  | some c => if c ≠ 0 then pyMin 1 (log1p c / 8) * pts2 else 0
  | none => 0

/-- The distance component (`distance_km` is compared with `is not None`,
so a present `0.0` does score). -/
def distanceScoreOf (pts3 : ℚ) (place : ProviderPlace) : ℚ :=
  match place.distance_km with
  | some d => if d ≤ 10 then (1 - pyMin d 10 / 10) * pts3 else 0
  | none => 0

/-- The price-fit bonus: `+5` when a price filter is supplied, the place
has a price level and it falls inclusively in the range, else 0. -/
def priceFitOf (filters : Option RankFilters) (place : ProviderPlace) : ℚ :=
  match filters with
  | some f =>
    match f.price, place.price_level with
    | some pr, some lvl => if pr.1 ≤ lvl ∧ lvl ≤ pr.2 then 5 else 0
    | _, _ => 0
  | none => 0

/-- The base score of one place: the four `score +=` blocks of the
ranker. -/
def baseScore (log1p : ℤ → ℚ) (points : ℚ × ℚ × ℚ) (filters : Option RankFilters)
    (place : ProviderPlace) : ℚ :=
  ratingScoreOf points.1 place + reviewScoreOf log1p points.2.1 place +
    distanceScoreOf points.2.2 place + priceFitOf filters place

/-- One output tuple `(place, score, evidence, requirements_info)`,
restricted to the fields consulted downstream (the `evidence` dict of
rounded per-signal contributions is omitted: it mirrors the score terms
and nothing reads it back). -/
structure ScoredEntry where
  place : ProviderPlace
  score : ℚ
  requirement_matches : List RequirementMatchRec
  match_percentage : ℚ
  max_possible_score : ℚ
deriving DecidableEq

/-- Score one place: base score plus `10 × confidence` for each matched
requirement; `match_percentage = matched/total × 100` (100 when no
requirements), rounded to one decimal. -/
def scoreEntry (log1p : ℤ → ℚ) (chain : ProviderPlace → Req → MatchOutcome)
    (points : ℚ × ℚ × ℚ) (filters : Option RankFilters) (reqs : List Req)
    (maxPossible : ℚ) (place : ProviderPlace) : ScoredEntry :=
  let outcomes := reqs.map (fun r => (r, chain place r))
  let recs := outcomes.map (fun ro => buildMatchRec ro.1 ro.2)
  let bonusSum := (outcomes.map (fun ro => bonusOf ro.2)).sum
  let score := baseScore log1p points filters place + bonusSum
  let matchPct :=
    if reqs.length ≠ 0 then qn (recs.countP (fun m => m.matched)) / qn reqs.length * 100
    else 100
  ⟨place, score, recs, pyRound1 matchPct, maxPossible⟩

/-- The sort relation of `scored.sort(key=lambda x: x[1], reverse=True)`:
score descending. -/
def scoreRel (a b : ScoredEntry) : Prop := b.score ≤ a.score

instance : DecidableRel scoreRel := fun a b =>
  inferInstanceAs (Decidable (b.score ≤ a.score))

instance : IsTotal ScoredEntry scoreRel := ⟨fun a b => le_total b.score a.score⟩

instance : IsTrans ScoredEntry scoreRel := ⟨fun _ _ _ h1 h2 => le_trans h2 h1⟩

/-- Embeds `max_possible_score = 100 + 10 × |requirements|`. -/
def maxPossibleScore (reqs : List Req) : ℚ :=
  if reqs.length ≠ 0 then 100 + qn (reqs.length * 10) else 100

/-- The scored list of `rank_places_async` before the final sort. -/
def unsortedScoredAsync (log1p : ℤ → ℚ) (sem : String → ProviderPlace → Option (ℚ × String))
    (places : List ProviderPlace) (preset : String) (filters : Option RankFilters)
    (requirements : Option (List Req)) (useSem : Bool) : List ScoredEntry :=
  places.map (scoreEntry log1p (matchChainAsync sem useSem) (presetPoints preset) filters
    (requirements.getD []) (maxPossibleScore (requirements.getD [])))

/-- Embeds `rank_places_async` (its pure data transformation): score every place
with the four-method chain, then sort by score descending (Python's sort
is stable, modelled by stable insertion sort). -/
def rankPlacesAsync (log1p : ℤ → ℚ) (sem : String → ProviderPlace → Option (ℚ × String))
    (places : List ProviderPlace) (preset : String) (filters : Option RankFilters)
    (requirements : Option (List Req)) (useSem : Bool) : List ScoredEntry :=
  if places.isEmpty then []
  else List.insertionSort scoreRel
    (unsortedScoredAsync log1p sem places preset filters requirements useSem)

/-- The scored list of `rank_places` before the final sort. -/
def unsortedScoredSync (log1p : ℤ → ℚ) (places : List ProviderPlace) (preset : String)
    (filters : Option RankFilters) (requirements : Option (List Req)) : List ScoredEntry :=
  places.map (scoreEntry log1p matchChainSync (presetPoints preset) filters
    (requirements.getD []) (maxPossibleScore (requirements.getD [])))

/-- Embeds `rank_places`, the synchronous wrapper: methods 1–2 only, same base
scoring and sort. -/
def rankPlaces (log1p : ℤ → ℚ) (places : List ProviderPlace) (preset : String)
    (filters : Option RankFilters) (requirements : Option (List Req)) : List ScoredEntry :=
  if places.isEmpty then []
  else List.insertionSort scoreRel (unsortedScoredSync log1p places preset filters requirements)

/-! ### Score-bound lemmas -/

lemma pyMin_one_le_one (x : ℚ) : pyMin 1 x ≤ 1 := by
  unfold pyMin
  split_ifs with h
  · exact le_refl 1
  · linarith

lemma pyMin_nonneg {a b : ℚ} (ha : 0 ≤ a) (hb : 0 ≤ b) : 0 ≤ pyMin a b := by
  unfold pyMin
  split_ifs <;> assumption

lemma presetPoints_spec (preset : String) :
    0 ≤ (presetPoints preset).1 ∧ 0 ≤ (presetPoints preset).2.1 ∧
    0 ≤ (presetPoints preset).2.2 ∧
    (presetPoints preset).1 + (presetPoints preset).2.1 + (presetPoints preset).2.2 = 100 := by
  unfold presetPoints
  split_ifs <;> norm_num

lemma valid_rating {p : ProviderPlace} (h : isValidProviderPlace p = true) :
    ∀ r, p.rating = some r → 0 ≤ r ∧ r ≤ 5 := by
  intro r hr
  unfold isValidProviderPlace at h
  rw [hr] at h
  simp only [Bool.and_eq_true, decide_eq_true_eq] at h
  exact h.1.1.1.2

lemma valid_distance {p : ProviderPlace} (h : isValidProviderPlace p = true) :
    ∀ d, p.distance_km = some d → 0 ≤ d := by
  intro d hd
  unfold isValidProviderPlace at h
  rw [hd] at h
  simp only [Bool.and_eq_true, decide_eq_true_eq] at h
  exact h.2

lemma baseScore_le {log1p : ℤ → ℚ} {pts : ℚ × ℚ × ℚ} {filters : Option RankFilters}
    {place : ProviderPlace}
    (hp1 : 0 ≤ pts.1) (hp2 : 0 ≤ pts.2.1) (hp3 : 0 ≤ pts.2.2)
    (hr : ∀ r, place.rating = some r → 0 ≤ r ∧ r ≤ 5)
    (hd : ∀ d, place.distance_km = some d → 0 ≤ d) :
    baseScore log1p pts filters place ≤ pts.1 + pts.2.1 + pts.2.2 + 5 := by
  have h1 : ratingScoreOf pts.1 place ≤ pts.1 := by
    unfold ratingScoreOf
    cases hrat : place.rating with
    | none => exact hp1
    | some r =>
      dsimp only
      split_ifs with hz
      · have hb := hr r hrat
        calc r / 5 * pts.1 ≤ 1 * pts.1 := by
              apply mul_le_mul_of_nonneg_right _ hp1
              rw [div_le_one (by norm_num)]
              exact hb.2
          _ = pts.1 := one_mul _
      · exact hp1
  have h2 : reviewScoreOf log1p pts.2.1 place ≤ pts.2.1 := by
    unfold reviewScoreOf
    cases hc : place.user_rating_count with
    | none => exact hp2
    | some c =>
      dsimp only
      split_ifs
      · exact mul_le_of_le_one_left hp2 (pyMin_one_le_one _)
      · exact hp2
  have h3 : distanceScoreOf pts.2.2 place ≤ pts.2.2 := by
    unfold distanceScoreOf
    cases hdk : place.distance_km with
    | none => exact hp3
    | some d =>
      dsimp only
      split_ifs
      · apply mul_le_of_le_one_left hp3
        have hmn : 0 ≤ pyMin d 10 := pyMin_nonneg (hd d hdk) (by norm_num)
        have hq : 0 ≤ pyMin d 10 / 10 := by positivity
        linarith
      · exact hp3
  have h4 : priceFitOf filters place ≤ 5 := by
    unfold priceFitOf
    rcases filters with _ | ⟨_ | pr⟩
    · norm_num
    · rcases place.price_level with _ | lvl <;> norm_num
    · rcases place.price_level with _ | lvl
      · norm_num
      · dsimp only
        split_ifs <;> norm_num
  exact add_le_add (add_le_add (add_le_add h1 h2) h3) h4

lemma bonusOf_le_ten {o : MatchOutcome} (hc : o.confidence ≤ 1) : bonusOf o ≤ 10 := by
  unfold bonusOf
  split_ifs
  · linarith
  · norm_num

lemma sum_le_len_mul_ten (l : List ℚ) (h : ∀ x ∈ l, x ≤ 10) :
    l.sum ≤ (l.length : ℚ) * 10 := by
  induction l with
  | nil => simp
  | cons x t ih =>
    have hx := h x (List.mem_cons_self x t)
    have ht := ih (fun y hy => h y (List.mem_cons_of_mem x hy))
    simp only [List.sum_cons, List.length_cons]
    push_cast
    linarith

lemma matchChainSync_confidence_le_one (place : ProviderPlace) (req : Req) :
    (matchChainSync place req).confidence ≤ 1 := by
  unfold matchChainSync
  cases checkStructuredAmenities place req.requirement req.keywords with
  | some f => norm_num
  | none =>
    cases checkKeywordMatch place req.keywords with
    | some kw => norm_num
    | none => norm_num

lemma matchChainAsync_confidence_le_one
    {sem : String → ProviderPlace → Option (ℚ × String)} (useSem : Bool)
    (place : ProviderPlace) (req : Req)
    (hsem : ∀ r pl q t, sem r pl = some (q, t) → q ≤ 1) :
    (matchChainAsync sem useSem place req).confidence ≤ 1 := by
  unfold matchChainAsync
  cases checkStructuredAmenities place req.requirement req.keywords with
  | some f => norm_num
  | none =>
    cases checkKeywordMatch place req.keywords with
    | some kw => norm_num
    | none =>
      cases h3 : (if useSem then sem req.requirement place else none) with
      | some st =>
        have hsome : sem req.requirement place = some st := by
          by_cases hu : useSem = true
          · rw [if_pos hu] at h3; exact h3
          · rw [if_neg hu] at h3; exact absurd h3 (by simp)
        exact hsem _ _ st.1 st.2 hsome
      | none =>
        cases checkReviewMentions place req.keywords with
        | some ev => norm_num
        | none => norm_num

lemma scoreEntry_score_le {log1p : ℤ → ℚ} {chain : ProviderPlace → Req → MatchOutcome}
    {preset : String} {filters : Option RankFilters} {reqs : List Req} {maxP : ℚ}
    {place : ProviderPlace}
    (hconf : ∀ r, (chain place r).confidence ≤ 1)
    (hr : ∀ r, place.rating = some r → 0 ≤ r ∧ r ≤ 5)
    (hd : ∀ d, place.distance_km = some d → 0 ≤ d) :
    (scoreEntry log1p chain (presetPoints preset) filters reqs maxP place).score
      ≤ 105 + (reqs.length : ℚ) * 10 := by
  obtain ⟨hp1, hp2, hp3, hsum⟩ := presetPoints_spec preset
  have hbase := @baseScore_le log1p (presetPoints preset) filters place hp1 hp2 hp3 hr hd
  rw [hsum] at hbase
  have hlen : ((reqs.map (fun r => (r, chain place r))).map (fun ro => bonusOf ro.2)).length
      = reqs.length := by simp
  have hbonus : ((reqs.map (fun r => (r, chain place r))).map (fun ro => bonusOf ro.2)).sum
      ≤ (reqs.length : ℚ) * 10 := by
    have := sum_le_len_mul_ten
      ((reqs.map (fun r => (r, chain place r))).map (fun ro => bonusOf ro.2)) ?_
    · rw [hlen] at this
      exact this
    · intro x hx
      simp only [List.mem_map] at hx
      obtain ⟨ro, hro, hxe⟩ := hx
      obtain ⟨r, _, hre⟩ := hro
      rw [← hxe, ← hre]
      exact bonusOf_le_ten (hconf r)
  show baseScore log1p (presetPoints preset) filters place +
      ((reqs.map (fun r => (r, chain place r))).map (fun ro => bonusOf ro.2)).sum
    ≤ 105 + (reqs.length : ℚ) * 10
  linarith

lemma scoreEntry_score (log1p : ℤ → ℚ) (chain : ProviderPlace → Req → MatchOutcome)
    (pts : ℚ × ℚ × ℚ) (filters : Option RankFilters) (reqs : List Req) (maxP : ℚ)
    (place : ProviderPlace) :
    (scoreEntry log1p chain pts filters reqs maxP place).score =
      baseScore log1p pts filters place +
        ((reqs.map (fun r => (r, chain place r))).map (fun ro => bonusOf ro.2)).sum := rfl

lemma scoreEntry_le_max_plus_five {log1p : ℤ → ℚ} {chain : ProviderPlace → Req → MatchOutcome}
    {preset : String} {filters : Option RankFilters} {reqs : List Req} {place : ProviderPlace}
    (hconf : ∀ r, (chain place r).confidence ≤ 1)
    (hr : ∀ r, place.rating = some r → 0 ≤ r ∧ r ≤ 5)
    (hd : ∀ d, place.distance_km = some d → 0 ≤ d) :
    (scoreEntry log1p chain (presetPoints preset) filters reqs (maxPossibleScore reqs)
        place).score
      ≤ (scoreEntry log1p chain (presetPoints preset) filters reqs (maxPossibleScore reqs)
          place).max_possible_score + 5 := by
  have h := @scoreEntry_score_le log1p chain preset filters reqs (maxPossibleScore reqs)
    place hconf hr hd
  rw [scoreEntry_score] at h
  show _ ≤ maxPossibleScore reqs + 5
  rw [scoreEntry_score]
  unfold maxPossibleScore
  split_ifs with hlen
  · rw [qn_eq_cast]
    push_cast
    linarith
  · have hz : reqs.length = 0 := by omega
    rw [hz] at h
    push_cast at h
    linarith

/-- C1 (amended): every scored place produced by `rank_places_async` or
`rank_places` has `score ≤ max_possible_score + 5`, where
`max_possible_score = 100 + 10 × |requirements|`; the slack of 5 is the
price-fit bonus, which the code adds on top of the 100 base points
without widening `max_possible_score`.  Hypotheses: input places satisfy
the `ProviderPlace` schema bounds, and the semantic oracle's similarity
never exceeds 1 (a cosine similarity). -/
theorem claim1_score_le_max_plus_five (log1p : ℤ → ℚ)
    (sem : String → ProviderPlace → Option (ℚ × String)) (places : List ProviderPlace)
    (preset : String) (filters : Option RankFilters) (requirements : Option (List Req))
    (useSem : Bool)
    (hvalid : ∀ p ∈ places, isValidProviderPlace p = true)
    (hsem : ∀ r pl q t, sem r pl = some (q, t) → q ≤ 1) :
    (∀ e ∈ rankPlacesAsync log1p sem places preset filters requirements useSem,
      e.score ≤ e.max_possible_score + 5) ∧
    (∀ e ∈ rankPlaces log1p places preset filters requirements,
      e.score ≤ e.max_possible_score + 5) := by
  constructor
  · intro e he
    unfold rankPlacesAsync at he
    split_ifs at he with hp
    · simp at he
    · have hperm := List.perm_insertionSort scoreRel
        (unsortedScoredAsync log1p sem places preset filters requirements useSem)
      have hmem := hperm.mem_iff.mp he
      unfold unsortedScoredAsync at hmem
      obtain ⟨p, hpmem, hpe⟩ := List.mem_map.mp hmem
      rw [← hpe]
      exact scoreEntry_le_max_plus_five
        (fun r => matchChainAsync_confidence_le_one useSem p r hsem)
        (valid_rating (hvalid p hpmem)) (valid_distance (hvalid p hpmem))
  · intro e he
    unfold rankPlaces at he
    split_ifs at he with hp
    · simp at he
    · have hperm := List.perm_insertionSort scoreRel
        (unsortedScoredSync log1p places preset filters requirements)
      have hmem := hperm.mem_iff.mp he
      unfold unsortedScoredSync at hmem
      obtain ⟨p, hpmem, hpe⟩ := List.mem_map.mp hmem
      rw [← hpe]
      exact scoreEntry_le_max_plus_five
        (fun r => matchChainSync_confidence_le_one p r)
        (valid_rating (hvalid p hpmem)) (valid_distance (hvalid p hpmem))

theorem claim1_score_le_max_plus_five_witness :
    (∀ e ∈ rankPlacesAsync (fun _ => 0) (fun _ _ => none) [samplePlaceA] "balanced" none
        none true, e.score ≤ e.max_possible_score + 5) ∧
    (∀ e ∈ rankPlaces (fun _ => 0) [samplePlaceA] "balanced" none none,
      e.score ≤ e.max_possible_score + 5) :=
  claim1_score_le_max_plus_five (fun _ => 0) (fun _ _ => none) [samplePlaceA] "balanced"
    none none true (by intro p hp; fin_cases hp; with_unfolding_all decide)
    (by intro r pl q t h; exact absurd h (by simp))

/-- A schema-valid place that maxes every base component: rating 5, a
review count far beyond the logarithmic cap (`log1p(10^9) ≈ 20.7 ≥ 8`, so
the oracle value 21 stands for `math.log1p` there and the `min(1, ·)` cap
makes the exact value irrelevant), distance 0, and a price level inside
the supplied filter. -/
def perfectPlace : ProviderPlace :=
  { provider := "google", provider_id := "top", name := "Perfect Place", category := none,
    lat := 0, lng := 0, rating := some 5, user_rating_count := some 1000000000,
    price_level := some 2, phone := none, website := none, maps_url := none, address := none,
    distance_km := some 0, types := none, raw := [] }

/-- C1 counterexample: with no requirements and a satisfied price filter,
`rank_places` emits score 105 against `max_possible_score = 100` —
`score ≤ max_possible_score` fails exactly through the +5 price-fit
bonus the claim says is covered. -/
theorem claim1_counterexample :
    ((rankPlaces (fun _ => 21) [perfectPlace] "balanced" (some ⟨some (1, 2)⟩) none).map
      (fun e => (e.score, e.max_possible_score))) = [(105, 100)] ∧
    ¬((105 : ℚ) ≤ 100) := by
  constructor
  · with_unfolding_all decide
  · norm_num

/-! ### Sort-order lemmas -/

lemma filter_orderedInsert_score (a : ScoredEntry) (l : List ScoredEntry) (q : ℚ) :
    (List.orderedInsert scoreRel a l).filter (fun e => decide (e.score = q)) =
      if a.score = q then a :: l.filter (fun e => decide (e.score = q))
      else l.filter (fun e => decide (e.score = q)) := by
  induction l with
  | nil =>
    by_cases h : a.score = q
    · rw [if_pos h]
      simp [List.orderedInsert, List.filter, h]
    · rw [if_neg h]
      simp [List.orderedInsert, List.filter, h]
  | cons b t ih =>
    simp only [List.orderedInsert]
    by_cases hrl : scoreRel a b
    · rw [if_pos hrl]
      by_cases h : a.score = q
      · rw [if_pos h]
        simp [List.filter_cons, h]
      · rw [if_neg h]
        simp [List.filter_cons, h]
    · rw [if_neg hrl]
      have hlt : a.score < b.score := lt_of_not_le hrl
      by_cases h : a.score = q
      · have hb : ¬(b.score = q) := by
          rw [← h]
          exact ne_of_gt hlt
        simp [List.filter_cons, ih, h, hb]
      · simp [List.filter_cons, ih, h]

lemma filter_insertionSort_score (l : List ScoredEntry) (q : ℚ) :
    (List.insertionSort scoreRel l).filter (fun e => decide (e.score = q)) =
      l.filter (fun e => decide (e.score = q)) := by
  induction l with
  | nil => rfl
  | cons a t ih =>
    simp only [List.insertionSort]
    rw [filter_orderedInsert_score, ih, List.filter_cons]
    by_cases h : a.score = q
    · rw [if_pos h, if_pos (by simpa using h)]
    · rw [if_neg h, if_neg (by simpa using h)]

/-- C4 (amended): the output of `rank_places_async` / `rank_places` is
sorted by score descending and is a permutation of the scored input;
within an equal-score class the original (input) order is preserved —
Python's sort is stable and the key is the score alone, so no
rating/review-count/distance tie-breaking takes place. -/
theorem claim4_sorted_score_desc_stable (log1p : ℤ → ℚ)
    (sem : String → ProviderPlace → Option (ℚ × String)) (places : List ProviderPlace)
    (preset : String) (filters : Option RankFilters) (requirements : Option (List Req))
    (useSem : Bool) :
    (List.Sorted scoreRel (rankPlacesAsync log1p sem places preset filters requirements useSem) ∧
     List.Perm (rankPlacesAsync log1p sem places preset filters requirements useSem)
       (unsortedScoredAsync log1p sem places preset filters requirements useSem) ∧
     ∀ q : ℚ, (rankPlacesAsync log1p sem places preset filters requirements useSem).filter
         (fun e => decide (e.score = q)) =
       (unsortedScoredAsync log1p sem places preset filters requirements useSem).filter
         (fun e => decide (e.score = q))) ∧
    (List.Sorted scoreRel (rankPlaces log1p places preset filters requirements) ∧
     List.Perm (rankPlaces log1p places preset filters requirements)
       (unsortedScoredSync log1p places preset filters requirements) ∧
     ∀ q : ℚ, (rankPlaces log1p places preset filters requirements).filter
         (fun e => decide (e.score = q)) =
       (unsortedScoredSync log1p places preset filters requirements).filter
         (fun e => decide (e.score = q))) := by
  constructor
  · unfold rankPlacesAsync
    split_ifs with hp
    · have hnil : places = [] := List.isEmpty_iff.mp hp
      subst hnil
      exact ⟨List.sorted_nil, by unfold unsortedScoredAsync; simp,
        by unfold unsortedScoredAsync; simp⟩
    · exact ⟨List.sorted_insertionSort scoreRel _, List.perm_insertionSort scoreRel _,
        fun q => filter_insertionSort_score _ q⟩
  · unfold rankPlaces
    split_ifs with hp
    · have hnil : places = [] := List.isEmpty_iff.mp hp
      subst hnil
      exact ⟨List.sorted_nil, by unfold unsortedScoredSync; simp,
        by unfold unsortedScoredSync; simp⟩
    · exact ⟨List.sorted_insertionSort scoreRel _, List.perm_insertionSort scoreRel _,
        fun q => filter_insertionSort_score _ q⟩

/-- Tie counterexample, the farther of two equal-score places.  Both have
rating 4 and no review count; any distance beyond 10 km contributes
exactly 0, so both score `4/5 × 55 = 44`. -/
def tieFarPlace : ProviderPlace :=
  { provider := "google", provider_id := "far", name := "Far Place", category := none,
    lat := 0, lng := 0, rating := some 4, user_rating_count := none, price_level := none,
    phone := none, website := none, maps_url := none, address := none,
    distance_km := some 12, types := none, raw := [] }

/-- Tie counterexample, the nearer place. -/
def tieNearPlace : ProviderPlace :=
  { provider := "google", provider_id := "near", name := "Near Place", category := none,
    lat := 0, lng := 0, rating := some 4, user_rating_count := none, price_level := none,
    phone := none, website := none, maps_url := none, address := none,
    distance_km := some 11, types := none, raw := [] }

/-- C4 counterexample: two places with equal scores (44), equal ratings
and equal (absent) review counts, where the claim's tie-breaking demands
the smaller `distance_km` (11) first; the code's stable score-only sort
leaves the 12 km place first. -/
theorem claim4_counterexample :
    ((rankPlaces (fun _ => 0) [tieFarPlace, tieNearPlace] "balanced" none none).map
      (fun e => (e.score, e.place.rating, e.place.user_rating_count, e.place.distance_km)))
      = [(44, some 4, none, some 12), (44, some 4, none, some 11)] := by
  with_unfolding_all decide

/-! ### Requirement-match exclusivity -/

lemma pyRound2_zero : pyRound2 0 = 0 := by
  norm_num [pyRound2, roundHalfEven]

/-- C7: for every (place, requirement) pair, the four methods are tried
in the fixed order structured → keyword → semantic → review and the
chain stops at the first match, so at most one method is recorded (the
iff-characterizations below pin each recorded method to "its check
succeeded and every earlier check failed"); a record is matched iff a
method was recorded; the score bonus is `10 × confidence` when matched
and `0` when not (the record stores that bonus rounded to 2 decimals). -/
theorem claim7_match_method_exclusive
    (sem : String → ProviderPlace → Option (ℚ × String)) (useSem : Bool)
    (place : ProviderPlace) (req : Req) :
    let o := matchChainAsync sem useSem place req
    (o.matched = true ↔ o.method.isSome = true) ∧
    (o.method = some "structured_data" ↔
      (checkStructuredAmenities place req.requirement req.keywords).isSome = true) ∧
    (o.method = some "keyword" ↔
      checkStructuredAmenities place req.requirement req.keywords = none ∧
      (checkKeywordMatch place req.keywords).isSome = true) ∧
    (o.method = some "semantic" ↔
      checkStructuredAmenities place req.requirement req.keywords = none ∧
      checkKeywordMatch place req.keywords = none ∧
      ((if useSem then sem req.requirement place else none)).isSome = true) ∧
    (o.method = some "review" ↔
      checkStructuredAmenities place req.requirement req.keywords = none ∧
      checkKeywordMatch place req.keywords = none ∧
      (if useSem then sem req.requirement place else none) = none ∧
      (checkReviewMentions place req.keywords).isSome = true) ∧
    (o.matched = true → bonusOf o = 10 * o.confidence ∧
      (buildMatchRec req o).score_bonus = pyRound2 (10 * o.confidence)) ∧
    (o.matched = false → bonusOf o = 0 ∧ (buildMatchRec req o).score_bonus = 0 ∧
      o.method = none) := by
  cases h1 : checkStructuredAmenities place req.requirement req.keywords with
  | some f =>
    simp [matchChainAsync, h1, buildMatchRec, bonusOf]
  | none =>
    cases h2 : checkKeywordMatch place req.keywords with
    | some kw =>
      simp [matchChainAsync, h1, h2, buildMatchRec, bonusOf]
    | none =>
      cases h3 : (if useSem then sem req.requirement place else none) with
      | some st =>
        simp [matchChainAsync, h1, h2, h3, buildMatchRec, bonusOf]
      | none =>
        cases h4 : checkReviewMentions place req.keywords with
        | some ev =>
          simp [matchChainAsync, h1, h2, h3, h4, buildMatchRec, bonusOf]
        | none =>
          simp [matchChainAsync, h1, h2, h3, h4, buildMatchRec, bonusOf, pyRound2_zero]

theorem claim7_match_method_exclusive_witness :
    bonusOf (matchChainAsync (fun _ _ => none) true samplePlaceA ⟨"WiFi", ["wifi"], "feature"⟩)
        = 0 ∧
    (buildMatchRec ⟨"WiFi", ["wifi"], "feature"⟩
        (matchChainAsync (fun _ _ => none) true samplePlaceA
          ⟨"WiFi", ["wifi"], "feature"⟩)).score_bonus = 0 ∧
    (matchChainAsync (fun _ _ => none) true samplePlaceA
        ⟨"WiFi", ["wifi"], "feature"⟩).method = none :=
  (claim7_match_method_exclusive (fun _ _ => none) true samplePlaceA
    ⟨"WiFi", ["wifi"], "feature"⟩).2.2.2.2.2.2 (by with_unfolding_all decide)

/-! ## Google provider adapter (`app/providers/google.py`)

One upstream entry of the Places API response, as `_convert_place` reads
it: every field access is a `dict.get` with a default, modelled by
`Option`.  `extra` stands for the remaining upstream keys carried along
by the `{**place_data, ...}` spread into `raw` (they are never consulted
by any code under verification). -/

structure GTextObj where
  text : Option String
deriving DecidableEq

structure GLocation where
  latitude : Option ℚ
  longitude : Option ℚ
deriving DecidableEq

structure GPlaceData where
  id : Option String
  displayName : Option GTextObj
  location : Option GLocation
  rating : Option ℚ
  userRatingCount : Option ℤ
  priceLevel : Option String
  primaryType : Option String
  nationalPhoneNumber : Option String
  websiteUri : Option String
  googleMapsUri : Option String
  formattedAddress : Option String
  editorialSummary : Option GTextObj
  types : Option (List String)
  outdoorSeating : Option Bool
  goodForChildren : Option Bool
  goodForGroups : Option Bool
  allowsDogs : Option Bool
  reservable : Option Bool
  servesBeer : Option Bool
  servesBreakfast : Option Bool
  servesBrunch : Option Bool
  servesDinner : Option Bool
  servesLunch : Option Bool
  servesVegetarianFood : Option Bool
  servesWine : Option Bool
  takeout : Option Bool
  delivery : Option Bool
  dineIn : Option Bool
  wheelchairAccessibleEntrance : Option Bool
  parkingOptions : Option (List (String × Bool))
  paymentOptions : Option (List (String × Bool))
  extra : List (String × RawVal)
deriving DecidableEq

/-- The `priceLevel` string-to-int map. -/
def priceLevelMap (s : String) : Option ℤ :=
  if s == "PRICE_LEVEL_FREE" then some 0
  else if s == "PRICE_LEVEL_INEXPENSIVE" then some 1
  else if s == "PRICE_LEVEL_MODERATE" then some 2
  else if s == "PRICE_LEVEL_EXPENSIVE" then some 3
  else if s == "PRICE_LEVEL_VERY_EXPENSIVE" then some 4
  else none

/-- The `enhanced_raw` dict: the explicitly (re)written snake_case keys,
followed by the spread-through upstream keys.  `opening_hours` (the
`currentOpeningHours` dict) is carried as `.other`: no matching code
distinguishes its contents. -/
def enhancedRaw (d : GPlaceData) : List (String × RawVal) :=
  [("editorial_summary", .s (((d.editorialSummary.getD ⟨none⟩).text).getD "")),
   ("outdoor_seating", .b (d.outdoorSeating.getD false)),
   ("good_for_children", .b (d.goodForChildren.getD false)),
   ("good_for_groups", .b (d.goodForGroups.getD false)),
   ("allows_dogs", .b (d.allowsDogs.getD false)),
   ("reservable", .b (d.reservable.getD false)),
   ("serves_beer", .b (d.servesBeer.getD false)),
   ("serves_breakfast", .b (d.servesBreakfast.getD false)),
   ("serves_brunch", .b (d.servesBrunch.getD false)),
   ("serves_dinner", .b (d.servesDinner.getD false)),
   ("serves_lunch", .b (d.servesLunch.getD false)),
   ("serves_vegetarian_food", .b (d.servesVegetarianFood.getD false)),
   ("serves_wine", .b (d.servesWine.getD false)),
   ("takeout", .b (d.takeout.getD false)),
   ("delivery", .b (d.delivery.getD false)),
   ("dine_in", .b (d.dineIn.getD false)),
   ("wheelchair_accessible", .b (d.wheelchairAccessibleEntrance.getD false)),
   ("parking_options", .d (d.parkingOptions.getD [])),
   ("payment_options", .d (d.paymentOptions.getD [])),
   ("opening_hours", .other)] ++ d.extra

/-- Embeds `_convert_place`: every missing field is replaced by a default —
`displayName.text` by `"Unknown"`, `location.latitude`/`longitude` by
`0.0` — and nothing is dropped here.  The haversine distance is the
`dist` oracle. -/
def convertPlace (dist : ℚ → ℚ → ℚ → ℚ → ℚ) (userLat userLng : ℚ) (d : GPlaceData) :
    ProviderPlace :=
  let name := ((d.displayName.getD ⟨none⟩).text).getD "Unknown"
  let loc := d.location.getD ⟨none, none⟩
  let lat := loc.latitude.getD 0
  let lng := loc.longitude.getD 0
  let distanceKm := dist userLat userLng lat lng / 1000
  let priceLevel := match d.priceLevel with
    | some s => if s ≠ "" then priceLevelMap s else none
    | none => none
  let category := match d.primaryType with
    | some t => if t ≠ "" then some (pyTitle (pyReplace t "_" " ")) else none
    | none => none
  { provider := "google",
    provider_id := d.id.getD "",
    name := name,
    category := category,
    lat := lat,
    lng := lng,
    rating := d.rating,
    user_rating_count := d.userRatingCount,
    price_level := priceLevel,
    phone := d.nationalPhoneNumber,
    website := d.websiteUri,
    maps_url := d.googleMapsUri,
    address := some (d.formattedAddress.getD ""),
    distance_km := some distanceKm,
    types := some (d.types.getD []),
    raw := enhancedRaw d }

/-- The conversion loop of `search_google_places`: each entry is
converted; an entry is skipped only when the conversion raises (for
well-typed data that is exactly a pydantic range violation, the
`isValidProviderPlace` check). -/
def searchGoogleConvert (dist : ℚ → ℚ → ℚ → ℚ → ℚ) (userLat userLng : ℚ)
    (entries : List GPlaceData) : List ProviderPlace :=
  entries.filterMap (fun d =>
    let converted := convertPlace dist userLat userLng d
    if isValidProviderPlace converted then some converted else none)

/-- C8 (amended): the adapter never drops an entry for a missing display
name or missing coordinates — it substitutes the defaults `"Unknown"` and
`(0.0, 0.0)` and emits the record (provided the remaining fields pass the
schema validation, the only way conversion can raise); so partial-parse
records *are* returned, with defaulted values in place of genuine ones. -/
theorem claim8_defaults_not_dropped (dist : ℚ → ℚ → ℚ → ℚ → ℚ) (userLat userLng : ℚ)
    (entries : List GPlaceData) (d : GPlaceData) (hd : d ∈ entries)
    (hvalid : isValidProviderPlace (convertPlace dist userLat userLng d) = true) :
    convertPlace dist userLat userLng d ∈ searchGoogleConvert dist userLat userLng entries ∧
    ((d.displayName.getD ⟨none⟩).text = none →
      (convertPlace dist userLat userLng d).name = "Unknown") ∧
    (d.location = none →
      (convertPlace dist userLat userLng d).lat = 0 ∧
      (convertPlace dist userLat userLng d).lng = 0) := by
  refine ⟨?_, ?_, ?_⟩
  · unfold searchGoogleConvert
    rw [List.mem_filterMap]
    exact ⟨d, hd, by rw [if_pos hvalid]⟩
  · intro hname
    unfold convertPlace
    rw [hname]
    rfl
  · intro hloc
    unfold convertPlace
    rw [hloc]
    exact ⟨rfl, rfl⟩

/-- The all-missing upstream entry. -/
def emptyGPlace : GPlaceData :=
  { id := none, displayName := none, location := none, rating := none,
    userRatingCount := none, priceLevel := none, primaryType := none,
    nationalPhoneNumber := none, websiteUri := none, googleMapsUri := none,
    formattedAddress := none, editorialSummary := none, types := none,
    outdoorSeating := none, goodForChildren := none, goodForGroups := none,
    allowsDogs := none, reservable := none, servesBeer := none, servesBreakfast := none,
    servesBrunch := none, servesDinner := none, servesLunch := none,
    servesVegetarianFood := none, servesWine := none, takeout := none, delivery := none,
    dineIn := none, wheelchairAccessibleEntrance := none, parkingOptions := none,
    paymentOptions := none, extra := [] }

/-- C8 counterexample: an upstream entry with no display name and no
coordinates is *not* dropped silently — the adapter returns one record
carrying the defaults `name = "Unknown"`, `lat = lng = 0`. -/
theorem claim8_counterexample :
    (searchGoogleConvert (fun _ _ _ _ => 0) 0 0 [emptyGPlace]).map
      (fun p => (p.name, p.lat, p.lng)) = [("Unknown", 0, 0)] := by
  with_unfolding_all decide

theorem claim8_defaults_not_dropped_witness :
    convertPlace (fun _ _ _ _ => 0) 0 0 emptyGPlace ∈
      searchGoogleConvert (fun _ _ _ _ => 0) 0 0 [emptyGPlace] ∧
    ((emptyGPlace.displayName.getD ⟨none⟩).text = none →
      (convertPlace (fun _ _ _ _ => 0) 0 0 emptyGPlace).name = "Unknown") ∧
    (emptyGPlace.location = none →
      (convertPlace (fun _ _ _ _ => 0) 0 0 emptyGPlace).lat = 0 ∧
      (convertPlace (fun _ _ _ _ => 0) 0 0 emptyGPlace).lng = 0) :=
  claim8_defaults_not_dropped (fun _ _ _ _ => 0) 0 0 [emptyGPlace] emptyGPlace
    (List.mem_singleton_self _) (by with_unfolding_all decide)

/-! ## Follow-up refiner (`app/services/search_service.py: _handle_followup`)
and result store (`app/cache/result_store.py`)

The cache is modelled as association lists (prepending models the
overwriting `set`); `uuid4()` enters as the parameter `newId`.  The
stored result-set dict always has its three keys, so `if data:` is true
exactly when the key is live and `get_result_set` then returns the
`places` list — possibly empty. -/

/-- A `filters.category` value: `str | List[str]`. -/
inductive StrOrList where
  | str (s : String)
  | list (l : List String)
deriving DecidableEq

/-- Embeds `[category] if isinstance(category, str) else category`. -/
def categoriesOf : StrOrList → List String
  | .str s => [s]
  | .list l => l

/-- Python truthiness of a `str | List[str]` value. -/
def catTruthy : StrOrList → Bool
  | .str s => s ≠ ""
  | .list l => !l.isEmpty

/-- Embeds `SearchFilters` as the follow-up handler reads it. -/
structure FollowFilters where
  price : Option (ℤ × ℤ)
  open_now : Option Bool
  category : Option StrOrList
deriving DecidableEq

/-- Embeds `SearchContext` (the fields the follow-up handler reads). -/
structure SearchCtx where
  conversation_id : Option String
  result_set_id : Option String
  follow_up : Bool
deriving DecidableEq

/-- A search request on the follow-up path (the handler is entered only
when a context with `follow_up` is present). -/
structure FollowReq where
  query : Option String
  filters : Option FollowFilters
  context : SearchCtx
  top_k : Nat
deriving DecidableEq

/-- The session store: result sets and conversation links. -/
structure Store where
  resultSets : List (String × List Place)
  conversations : List (String × String)
deriving DecidableEq

/-- First-match association lookup (the freshest `set` wins). -/
def lookupAssoc {α : Type} (l : List (String × α)) (k : String) : Option α :=
  (l.find? (fun e => e.1 == k)).map (·.2)

/-- Embeds `get_result_set`: `data.get("places", [])` when the key is live. -/
def getResultSet (store : Store) (rid : String) : Option (List Place) :=
  lookupAssoc store.resultSets rid

/-- Embeds `get_latest_result_set`; `if not result_set_id: return None` is the
truthiness test on the stored id. -/
def getLatestResultSet (store : Store) (cid : String) : Option (List Place) :=
  match lookupAssoc store.conversations cid with
  | none => none
  | some rid => if rid ≠ "" then getResultSet store rid else none

/-- Embeds `store_result_set`: write the places under the fresh id and link the
conversation when one is (truthily) provided. -/
def storeResultSet (store : Store) (rid : String) (places : List Place)
    (cid : Option String) : Store :=
  { resultSets := (rid, places) :: store.resultSets,
    conversations := match cid with
      | some c => if c ≠ "" then (c, rid) :: store.conversations else store.conversations
      | none => store.conversations }

/-- The hardcoded must-have extraction from the follow-up query text. -/
def followupMustHaves (q : String) : List String :=
  let ql := pyLower q
  (if pyIn "changing station" ql || pyIn "changing_station" ql then ["changing_station"]
   else []) ++
  (if pyIn "wifi" ql then ["wifi"] else []) ++
  (if pyIn "outdoor seating" ql then ["outdoor_seating"] else [])

/-- The filter-loop body of `_handle_followup`: a prior place is kept
unless a supplied filter rejects it.  The price test runs only when the
place *has* a price level (`place.price_level is not None`), so
price-less places always pass the price filter. -/
def followupKeep (req : FollowReq) (place : Place) : Bool :=
  let filtersOK := match req.filters with
    | none => true
    | some f =>
      let priceOK := match f.price, place.price_level with
        | some pr, some lvl => decide (pr.1 ≤ lvl ∧ lvl ≤ pr.2)
        | _, _ => true
      let catOK := match f.category with
        | some cat =>
          if catTruthy cat then
            match place.category with
            | some c => (categoriesOf cat).contains c
            | none => false
          else true
        | none => true
      priceOK && catOK
  let queryOK := match req.query with
    | some q =>
      if q ≠ "" then
        let mh := followupMustHaves q
        if mh ≠ [] then (checkMustHaves place.features mh).1 else true
      else true
    | none => true
  filtersOK && queryOK

/-- Python truthiness of an optional string. -/
def truthyStrOpt : Option String → Bool
  | some s => decide (s ≠ "")
  | none => false

/-- Embeds `if request.context.result_set_id: ... elif request.context.conversation_id: ...`. -/
def previousPlaces (store : Store) (req : FollowReq) : Option (List Place) :=
  if truthyStrOpt req.context.result_set_id then
    getResultSet store (req.context.result_set_id.getD "")
  else if truthyStrOpt req.context.conversation_id then
    getLatestResultSet store (req.context.conversation_id.getD "")
  else none

/-- The two ways `_handle_followup` can return: fall back to a fresh full
search (with the `follow_up` flag cleared) or a refined response. -/
inductive FollowupOutcome where
  | fresh (req : FollowReq)
  | refined (places : List Place) (result_set_id : String) (store : Store)
deriving DecidableEq

/-- Embeds `request.context.follow_up = False` before the fallback search. -/
def clearFollowUp (req : FollowReq) : FollowReq :=
  { req with context := { req.context with follow_up := false } }

/-- Embeds `_handle_followup`: load the prior result set; on `not
previous_places` (absent **or** empty) clear the flag and fall back to a
fresh search; otherwise filter, store the filtered list under the fresh
id, and answer with the first `top_k` filtered places. -/
def handleFollowup (newId : String) (store : Store) (req : FollowReq) : FollowupOutcome :=
  match previousPlaces store req with
  | none => .fresh (clearFollowUp req)
  | some prev =>
    if prev.isEmpty then .fresh (clearFollowUp req)
    else
      let filtered := prev.filter (followupKeep req)
      .refined (filtered.take req.top_k) newId
        (storeResultSet store newId filtered req.context.conversation_id)

/-- The refined-places projection of an outcome. -/
def refinedPlaces : FollowupOutcome → Option (List Place)
  | .refined ps _ _ => some ps
  | .fresh _ => none

/-- C10: a retrievable-but-empty stored result set is treated exactly
like an absent one: `if not previous_places:` catches both `None` and
`[]`, so the handler clears the `follow_up` flag and falls back to a full
fresh search, and never produces a follow-up (refined) response from an
empty stored result set. -/
theorem claim10_empty_result_set_like_absent (newId : String) (store : Store)
    (req : FollowReq) (rid : String)
    (hrid : req.context.result_set_id = some rid) (hne : rid ≠ "") :
    (getResultSet store rid = some [] →
      handleFollowup newId store req = .fresh (clearFollowUp req) ∧
      (clearFollowUp req).context.follow_up = false) ∧
    (getResultSet store rid = none →
      handleFollowup newId store req = .fresh (clearFollowUp req)) := by
  have hprev : ∀ v, getResultSet store rid = v → previousPlaces store req = v := by
    intro v hv
    unfold previousPlaces
    rw [hrid]
    have ht : truthyStrOpt (some rid) = true := by
      unfold truthyStrOpt
      exact decide_eq_true hne
    rw [if_pos ht]
    simpa using hv
  constructor
  · intro h
    refine ⟨?_, rfl⟩
    unfold handleFollowup
    rw [hprev _ h]
    rfl
  · intro h
    unfold handleFollowup
    rw [hprev _ h]

/-- A sample fused place with no price level. -/
def noPricePlace : Place :=
  { id := "p1", name := "No Price Cafe", category := none, price_level := none,
    rating := some 4, distance_km := some 1, features := [], score := 50 }

/-- A sample fused place with price level 3 (outside the 1..2 filter). -/
def pricyPlace : Place :=
  { id := "p2", name := "Pricy Cafe", category := none, price_level := some 3,
    rating := some 4, distance_km := some 1, features := [], score := 40 }

/-- A sample fused place with price level 2 (inside the 1..2 filter). -/
def midPricePlace : Place :=
  { id := "p3", name := "Mid Cafe", category := none, price_level := some 2,
    rating := some 4, distance_km := some 1, features := [], score := 30 }

/-- The stored state of the follow-up scenario: one result set under id
`"old"` with a price-less place, a mid-priced and an over-priced place in
score order. -/
def c3Store : Store :=
  { resultSets := [("old", [noPricePlace, midPricePlace, pricyPlace])], conversations := [] }

/-- The follow-up request of the scenario: price filter `[1, 2]`. -/
def c3Req : FollowReq :=
  { query := none,
    filters := some { price := some (1, 2), open_now := none, category := none },
    context := { conversation_id := none, result_set_id := some "old", follow_up := true },
    top_k := 30 }

/-- C3 counterexample: under the price filter `[1, 2]`, the refined
response still contains `noPricePlace`, whose `price_level` is `None` —
the code's price test only applies to places that have a price level, so
"every returned place has a price level and it lies in the range" fails. -/
theorem claim3_counterexample :
    refinedPlaces (handleFollowup "new" c3Store c3Req) =
      some [noPricePlace, midPricePlace] ∧
    noPricePlace.price_level = none := by
  constructor
  · with_unfolding_all decide
  · rfl

/-- C3 (amended): for a follow-up over a nonempty stored result set with
price filter `[min, max]`, the refined response keeps exactly the prior
places whose price level is absent **or** inside the range: every
returned place with a price level has it in the inclusive range, but
price-less places are retained too; the prior order is preserved (the
output is a sublist of the stored list); the result is stored under the
supplied fresh id; and the original stored result set is unchanged. -/
theorem claim3_followup_price_filter (newId : String) (store : Store) (req : FollowReq)
    (rid : String) (prev : List Place) (fl : FollowFilters) (mn mx : ℤ)
    (hrid : req.context.result_set_id = some rid) (hne : rid ≠ "")
    (hprev : getResultSet store rid = some prev) (hnonempty : prev ≠ [])
    (hf : req.filters = some fl) (hp : fl.price = some (mn, mx)) :
    ∀ ps sid st', handleFollowup newId store req = .refined ps sid st' →
      (∀ pl ∈ ps, ∀ lvl, pl.price_level = some lvl → mn ≤ lvl ∧ lvl ≤ mx) ∧
      ps.Sublist prev ∧
      sid = newId ∧
      (newId ≠ rid → getResultSet st' rid = some prev) := by
  intro ps sid st' hout
  have hpp : previousPlaces store req = some prev := by
    unfold previousPlaces
    rw [hrid]
    have ht : truthyStrOpt (some rid) = true := by
      unfold truthyStrOpt
      exact decide_eq_true hne
    rw [if_pos ht]
    simpa using hprev
  unfold handleFollowup at hout
  rw [hpp] at hout
  dsimp only at hout
  rw [if_neg (by simpa using hnonempty)] at hout
  injection hout with h1 h2 h3
  subst h1
  subst h2
  subst h3
  refine ⟨?_, ?_, rfl, ?_⟩
  · intro pl hpl lvl hlvl
    have hmem : pl ∈ prev.filter (followupKeep req) := List.mem_of_mem_take hpl
    have hkeep : followupKeep req pl = true := (List.mem_filter.mp hmem).2
    unfold followupKeep at hkeep
    rw [hf] at hkeep
    dsimp only at hkeep
    rw [hp, hlvl] at hkeep
    simp only [Bool.and_eq_true, decide_eq_true_eq] at hkeep
    exact hkeep.1.1
  · exact (List.take_sublist _ _).trans (List.filter_sublist prev)
  · intro hid
    show lookupAssoc ((newId, prev.filter (followupKeep req)) :: store.resultSets) rid
      = some prev
    unfold lookupAssoc
    rw [List.find?_cons_of_neg]
    · exact hprev
    · simp only [beq_iff_eq]
      exact hid

theorem claim3_followup_price_filter_witness :
    (∀ pl ∈ [noPricePlace, midPricePlace], ∀ lvl, pl.price_level = some lvl →
      1 ≤ lvl ∧ lvl ≤ 2) ∧
    List.Sublist [noPricePlace, midPricePlace] [noPricePlace, midPricePlace, pricyPlace] ∧
    "new" = "new" ∧
    ("new" ≠ "old" →
      getResultSet (storeResultSet c3Store "new" [noPricePlace, midPricePlace] none) "old" =
        some [noPricePlace, midPricePlace, pricyPlace]) :=
  claim3_followup_price_filter "new" c3Store c3Req "old"
    [noPricePlace, midPricePlace, pricyPlace] ⟨some (1, 2), none, none⟩ 1 2
    rfl (by decide) (by with_unfolding_all decide) (by decide) rfl rfl
    [noPricePlace, midPricePlace] "new"
    (storeResultSet c3Store "new" [noPricePlace, midPricePlace] none)
    (by with_unfolding_all decide)

theorem claim10_empty_result_set_like_absent_witness :
    (getResultSet ⟨[("old", [])], []⟩ "old" = some [] →
      handleFollowup "new" ⟨[("old", [])], []⟩ c3Req = .fresh (clearFollowUp c3Req) ∧
      (clearFollowUp c3Req).context.follow_up = false) ∧
    (getResultSet ⟨[("old", [])], []⟩ "old" = none →
      handleFollowup "new" ⟨[("old", [])], []⟩ c3Req = .fresh (clearFollowUp c3Req)) :=
  claim10_empty_result_set_like_absent "new" ⟨[("old", [])], []⟩ c3Req "old" rfl
    (by decide)

end AroundMe
